import Mathlib

/-!
Verification development for mbtool's `utilities.cpp` (DualBootPatcher):
the AROMA zip generator.  The embedding models `generate_aroma_config`,
the `AromaGenerator` FTS callbacks and both `add_file` overloads, with
the minizip and filesystem outcomes supplied as explicit environments.
-/

set_option maxRecDepth 4000

namespace Mbtool

/-- Modelled from the spec: `util::replace_all` (util/string.cpp, not under
src/) performs literal substring substitution, replacing every occurrence
left to right and continuing the scan after the inserted replacement text.
The extra fuel argument (initialised to the buffer length) makes the
recursion structural; each step consumes at least one character, so the
fuel never runs out on the initial call. -/
def replaceAllFuel (pat rep : List Char) : Nat → List Char → List Char
  | _, [] => []
  | 0, s => s
  | fuel + 1, c :: rest =>
    if pat ≠ [] ∧ pat.isPrefixOf (c :: rest) then
      rep ++ replaceAllFuel pat rep fuel ((c :: rest).drop pat.length)
    else
      c :: replaceAllFuel pat rep fuel rest

/-- Modelled from the spec: `util::replace_all (&str, from, to)`. -/
def replace_all (s pat rep : List Char) : List Char :=
  replaceAllFuel pat rep s.length s

/-- Boolean substring test, used to state facts about leftover placeholder
tokens in rewritten buffers. -/
def containsTok : List Char → List Char → Bool
  | [], tok => tok.isEmpty
  | c :: rest, tok => tok.isPrefixOf (c :: rest) || containsTok rest tok

/-- One installed ROM, as seen by `generate_aroma_config`.  `id` is the
ROM identifier; `configName` is `some n` when `RomConfig::load_file` on
`/data/media/0/MultiBoot/<id>/config.json` succeeds with display name `n`
(the config loader is an external collaborator, modelled as an injected
field per the spec's injected read-only capability). -/
structure Rom where
  id : List Char
  configName : Option (List Char)

/-- The name used for a ROM's menu line: the loaded config name when the
per-ROM config loads, the ROM id otherwise (utilities.cpp lines 216-221). -/
def displayName (r : Rom) : List Char :=
  match r.configName with
  | some n => n
  | none => r.id

/-- One menu record: `util::format("\"%s\", \"\", \"@default\",\n", name)`. -/
def menuLine (name : List Char) : List Char :=
  '"' :: (name ++ ("\", \"\", \"@default\",\n").toList)

/-- One selection record for the ROM at 0-based loop index `i`
(utilities.cpp lines 226-231); the selector value is `i + 2 + 1`. -/
def selectionItem (i : Nat) (romId name : List Char) : List Char :=
  ("if prop(\"operations.prop\", \"selected\") == \"").toList
    ++ (Nat.repr (i + 2 + 1)).toList
    ++ ("\" then\n    setvar(\"romid\", \"").toList
    ++ romId
    ++ ("\");\n    setvar(\"romname\", \"").toList
    ++ name
    ++ ("\");\nendif;\n").toList

/-- The loop of `generate_aroma_config` (lines 211-232): accumulates the
menu-items and selection-items strings over the ROM list, with `i` the
0-based index of the first remaining ROM. -/
def aromaItems : Nat → List Rom → List Char × List Char
  | _, [] => ([], [])
  | i, r :: rest =>
    let p := aromaItems (i + 1) rest
    (menuLine (displayName r) ++ p.1,
     selectionItem i r.id (displayName r) ++ p.2)

/-- The literal tab placeholder. -/
def tabTok : List Char := ['\t']

/-- The tab replacement: the two characters backslash and `t`. -/
def tabRep : List Char := ("\\t").toList

/-- The version placeholder token. -/
def versionTok : List Char := ("@MBTOOL_VERSION@").toList

/-- The menu-items placeholder token. -/
def menuTok : List Char := ("@ROM_MENU_ITEMS@").toList

/-- The selection-items placeholder token. -/
def selTok : List Char := ("@ROM_SELECTION_ITEMS@").toList

/-- The first-index placeholder token. -/
def firstTok : List Char := ("@FIRST_INDEX@").toList

/-- The last-index placeholder token. -/
def lastTok : List Char := ("@LAST_INDEX@").toList

/-- The value substituted for the first-index token:
`util::format("%d", 2 + 1)` (line 238). -/
def first_index_str : List Char := (Nat.repr (2 + 1)).toList

/-- The value substituted for the last-index token:
`util::format("%zu", 2 + roms.roms.size())` (lines 239-240). -/
def last_index_str (roms : List Rom) : List Char :=
  (Nat.repr (2 + roms.length)).toList

/-- `generate_aroma_config` (lines 201-243): the template rewrite.  The
`version` parameter stands for the build-time constant `MBP_VERSION`.
The six `replace_all` calls are applied in the code's order: tab,
version, menu items, selection items, first index, last index. -/
def generate_aroma_config (version : List Char) (roms : List Rom)
    (data : List Char) : List Char :=
  let items := aromaItems 0 roms
  let s1 := replace_all data tabTok tabRep
  let s2 := replace_all s1 versionTok version
  let s3 := replace_all s2 menuTok items.1
  let s4 := replace_all s3 selTok items.2
  let s5 := replace_all s4 firstTok first_index_str
  replace_all s5 lastTok (last_index_str roms)

/-- The six (token, replacement) pairs of the rewrite, in the order the
code applies them. -/
def substitutions (version : List Char) (roms : List Rom) :
    List (List Char × List Char) :=
  [(tabTok, tabRep),
   (versionTok, version),
   (menuTok, (aromaItems 0 roms).1),
   (selTok, (aromaItems 0 roms).2),
   (firstTok, first_index_str),
   (lastTok, last_index_str roms)]

/-- Sequential application of a list of substitutions to a buffer. -/
def applySubsts (data : List Char) (subs : List (List Char × List Char)) :
    List Char :=
  subs.foldl (fun s p => replace_all s p.1 p.2) data

/-- The tri-state outcome an FTS callback returns (Action enum). -/
inductive FTSAction
  | FTS_OK
  | FTS_Fail
  | FTS_Skip
deriving DecidableEq, BEq, Repr

/-- The kind of a node the tree walker delivers. -/
inductive NodeKind
  | file
  | symlink
  | special
deriving DecidableEq, Repr

/-- One node reached by the walk.  `ftsPath` is `_curr->fts_path`;
`bytes` is the outcome of reading the file at `fts_accpath` (`none` when
`util::file_read_all` fails); `addOk` abstracts whether the underlying
minizip `add_file` call for this node succeeds. -/
structure WalkNode where
  kind : NodeKind
  ftsPath : List Char
  bytes : Option (List Char)
  addOk : Bool

/-- The logical path `on_reached_file` computes (line 275):
`std::string(_curr->fts_path).substr(_path.size() + 1)`. -/
def entryName (root ftsPath : List Char) : List Char :=
  ftsPath.drop (root.length + 1)

/-- The renamed-template source path compared against on line 278. -/
def aromaConfigInName : List Char :=
  ("META-INF/com/google/android/aroma-config.in").toList

/-- The renamed output path assigned on line 287. -/
def aromaConfigName : List Char :=
  ("META-INF/com/google/android/aroma-config").toList

/-- `AromaGenerator::on_reached_file` (lines 273-294), returning the
action together with the archive entries (name, content) it adds.  A
read failure on the template returns failure and adds nothing; for an
ordinary file the streamed content is the node's bytes. -/
def on_reached_file (root version : List Char) (roms : List Rom)
    (node : WalkNode) : FTSAction × List (List Char × List Char) :=
  let name := entryName root node.ftsPath
  if name = aromaConfigInName then
    match node.bytes with
    | none => (FTSAction.FTS_Fail, [])
    | some data =>
      let rewritten := generate_aroma_config version roms data
      if node.addOk then (FTSAction.FTS_OK, [(aromaConfigName, rewritten)])
      else (FTSAction.FTS_Fail, [])
  else
    if node.addOk then (FTSAction.FTS_OK, [(name, node.bytes.getD [])])
    else (FTSAction.FTS_Fail, [])

/-- `AromaGenerator::on_reached_symlink` (lines 296-300): logs and
returns `FTS_OK`; no entry is added. -/
def on_reached_symlink (node : WalkNode) :
    FTSAction × List (List Char × List Char) :=
  (FTSAction.FTS_OK, [])

/-- `AromaGenerator::on_reached_special_file` (lines 302-306): logs and
returns `FTS_OK`; no entry is added. -/
def on_reached_special_file (node : WalkNode) :
    FTSAction × List (List Char × List Char) :=
  (FTSAction.FTS_OK, [])

/-- Dispatch of one walk node to the matching callback. -/
def processNode (root version : List Char) (roms : List Rom)
    (node : WalkNode) : FTSAction × List (List Char × List Char) :=
  match node.kind with
  | NodeKind.file => on_reached_file root version roms node
  | NodeKind.symlink => on_reached_symlink node
  | NodeKind.special => on_reached_special_file node

/-- Modelled from the spec: the walk loop of `FTSWrapper::run`
(util/fts.cpp, not under src/).  A failure from the file handler is
fatal and stops traversal; other outcomes continue and accumulate the
entries added so far. -/
def processNodes (root version : List Char) (roms : List Rom) :
    List WalkNode → Bool × List (List Char × List Char)
  | [] => (true, [])
  | n :: rest =>
    let r := processNode root version roms n
    if r.1 = FTSAction.FTS_Fail then (false, r.2)
    else
      let p := processNodes root version roms rest
      (p.1, r.2 ++ p.2)

/-- `AromaGenerator::on_post_execute` (lines 267-271): discards the
`success` argument and returns whether `zipClose` returned `ZIP_OK`. -/
def on_post_execute (success : Bool) (closeOk : Bool) : Bool :=
  closeOk

/-- Modelled from the spec: `FTSWrapper::run` (util/fts.cpp, not under
src/).  `on_pre_execute` failure (`openOk = false`) aborts before any
traversal; otherwise the nodes are processed and the overall result is
the conjunction of the traversal result with `on_post_execute`, whose
body is taken from the code. -/
def run (openOk : Bool) (root version : List Char) (roms : List Rom)
    (nodes : List WalkNode) (closeOk : Bool) :
    Bool × List (List Char × List Char) :=
  if openOk then
    let p := processNodes root version roms nodes
    (p.1 && on_post_execute p.1 closeOk, p.2)
  else
    (false, [])

/-- A call made against the minizip handle while adding one entry. -/
inductive ZipCall
  | openEntry (name : List Char) (zip64 : Bool) (extFa : Nat)
  | write
  | closeEntry
deriving DecidableEq, Repr

/-- Environment for the buffer-sourced `add_file(name, contents)`
(lines 312-354): the results minizip returns for the record open and
the single data write. -/
structure BufEnv where
  openEntryOk : Bool
  writeOk : Bool

/-- Environment for the path-sourced `add_file(name, path)` (lines
356-431): outcomes of `open64`, `fstat`, the lseek-derived size, the
`st_mode` from `fstat`, the record-open result, and the read loop.
Each element of `reads` is one iteration: `some w` is a successful
`read` of a chunk whose `zipWriteInFileInZip` returns success iff `w`;
`none` is `read` returning a negative count (read error). -/
structure PathEnv where
  fdOk : Bool
  statOk : Bool
  size : Nat
  mode : Nat
  openEntryOk : Bool
  reads : List (Option Bool)

/-- `add_file(name, contents)` (lines 312-354).  The zip64 flag is
`(uint64_t) contents.size() >= ((1ull << 32) - 1)`; the `zip_fileinfo`
is zero-initialised and its `external_fa` left untouched. -/
def add_file_contents (env : BufEnv) (name contents : List Char) :
    Bool × List ZipCall :=
  let zip64 := decide (2 ^ 32 - 1 ≤ contents.length)
  let callOpen := ZipCall.openEntry name zip64 0
  if !env.openEntryOk then
    (false, [callOpen])
  else if !env.writeOk then
    (false, [callOpen, ZipCall.write, ZipCall.closeEntry])
  else
    (true, [callOpen, ZipCall.write, ZipCall.closeEntry])

/-- The read/write loop of `add_file(name, path)` (lines 406-430)
together with the calls it makes: a failed write closes the entry and
fails; a read error closes the entry and fails; end of file closes the
entry and succeeds. -/
def writeLoop : List (Option Bool) → Bool × List ZipCall
  | [] => (true, [ZipCall.closeEntry])
  | none :: _ => (false, [ZipCall.closeEntry])
  | some w :: rest =>
    if w then
      let p := writeLoop rest
      (p.1, ZipCall.write :: p.2)
    else
      (false, [ZipCall.write, ZipCall.closeEntry])

/-- `add_file(name, path)` (lines 356-431).  `open64`/`fstat` failures
return before any minizip call; the zip64 flag is
`size >= ((1ull << 32) - 1)` on the lseek-derived size, and
`external_fa` is `(sb.st_mode & 0777) << 16`. -/
def add_file_path (env : PathEnv) (name : List Char) :
    Bool × List ZipCall :=
  if !env.fdOk then
    (false, [])
  else if !env.statOk then
    (false, [])
  else
    let zip64 := decide (2 ^ 32 - 1 ≤ env.size)
    let extFa := (env.mode &&& 0o777) <<< 16
    let callOpen := ZipCall.openEntry name zip64 extFa
    if !env.openEntryOk then
      (false, [callOpen])
    else
      let p := writeLoop env.reads
      (p.1, callOpen :: p.2)

/-- The zip64 flag passed to `zipOpenNewFileInZip2_64`, read off the
call trace (the first call, when one was made). -/
def zip64Of (r : Bool × List ZipCall) : Option Bool :=
  match r.2 with
  | ZipCall.openEntry _ z _ :: _ => some z
  | _ => none

/-- The `external_fa` field passed to `zipOpenNewFileInZip2_64`, read
off the call trace. -/
def extFaOf (r : Bool × List ZipCall) : Option Nat :=
  match r.2 with
  | ZipCall.openEntry _ _ fa :: _ => some fa
  | _ => none

end Mbtool

namespace Mbtool

/-- The menu-items accumulator is the concatenation, in ROM-list order,
of one menu line per ROM, independently of the starting index. -/
theorem aromaItems_fst (i : Nat) (roms : List Rom) :
    (aromaItems i roms).1 = (roms.map fun r => menuLine (displayName r)).flatten := by
  induction roms generalizing i with
  | nil => rfl
  | cons r rest ih => simp [aromaItems, ih]

/-- The traversal result of the walk loop is the conjunction of the
per-node callback outcomes: it is `true` exactly when no callback
returned `FTS_Fail`. -/
theorem processNodes_fst (root version : List Char) (roms : List Rom)
    (nodes : List WalkNode) :
    (processNodes root version roms nodes).1
      = nodes.all fun n => decide ((processNode root version roms n).1 ≠ FTSAction.FTS_Fail) := by
  induction nodes with
  | nil => rfl
  | cons n rest ih =>
    by_cases hf : (processNode root version roms n).1 = FTSAction.FTS_Fail <;>
      simp [processNodes, hf, ih]

/-- When the read/write loop hits a read error or a failed write, it
fails and its call trace contains the entry-close call. -/
theorem writeLoop_err :
    ∀ reads : List (Option Bool),
    reads.any (fun o => !(o == some true)) = true →
    (writeLoop reads).1 = false ∧ ZipCall.closeEntry ∈ (writeLoop reads).2
  | [], herr => by simp at herr
  | none :: rest, _ => ⟨rfl, by simp [writeLoop]⟩
  | some false :: rest, _ => ⟨rfl, by simp [writeLoop]⟩
  | some true :: rest, herr => by
    have herr2 : rest.any (fun o => !(o == some true)) = true := by
      simpa using herr
    have h := writeLoop_err rest herr2
    exact ⟨h.1, by simp [writeLoop, h.2]⟩

/-- Dropping the length of a prefix plus `n` drops the prefix and then
`n` more elements. -/
theorem drop_length_add {α : Type} (xs ys : List α) (n : Nat) :
    List.drop (xs.length + n) (xs ++ ys) = List.drop n ys := by
  simp [List.drop_append]

end Mbtool

namespace Mbtool

/-- C1 (amended): with zero installed ROMs the generated menu-items and
selection-items replacement strings are both empty, the value substituted
for the first-index token is "3" and the value substituted for the
last-index token is "2"; with N installed ROMs the last-index value is
the decimal rendering of N + 2, one less than the claimed offset-plus-N. -/
theorem C1_last_index_values :
    (aromaItems 0 []).1 = [] ∧ (aromaItems 0 []).2 = []
    ∧ first_index_str = ("3").toList
    ∧ last_index_str [] = ("2").toList
    ∧ ∀ roms : List Rom, last_index_str roms = (Nat.repr (roms.length + 2)).toList := by
  refine ⟨rfl, rfl, by decide, by decide, ?_⟩
  intro roms
  simp [last_index_str, Nat.add_comm]

/-- C1 counterexample: with zero installed ROMs the code substitutes "2",
not "3", for the last-index token, so the claim that first index and last
index are both the offset constant 3 fails. -/
theorem C1_counterexample :
    last_index_str [] = ("2").toList ∧ (("2").toList ≠ ("3").toList) := by
  exact ⟨by decide, by decide⟩

/-- C3: with the archive opened, the packaging result is the conjunction
of "no reached-file handler invocation failed" and "the archive close
succeeded"; in particular a failed close makes the overall result false
even when every handler succeeded. -/
theorem C3_overall_result :
    ∀ (root version : List Char) (roms : List Rom) (nodes : List WalkNode)
      (closeOk : Bool),
    (run true root version roms nodes closeOk).1
      = ((nodes.all fun n => decide ((processNode root version roms n).1 ≠ FTSAction.FTS_Fail))
          && closeOk)
    ∧ (run true root version roms nodes false).1 = false := by
  intro root version roms nodes closeOk
  constructor
  · show ((processNodes root version roms nodes).1
        && on_post_execute (processNodes root version roms nodes).1 closeOk) = _
    rw [processNodes_fst]
    rfl
  · show ((processNodes root version roms nodes).1
        && on_post_execute (processNodes root version roms nodes).1 false) = false
    simp [on_post_execute]

/-- C6: the symlink and special-file handlers return `FTS_OK` and add no
archive entry, for every node; a symlink or special node at the head of
the walk changes neither the walk result nor the entries produced. -/
theorem C6_symlink_special_nonfatal :
    ∀ (node : WalkNode) (root version p : List Char) (b : Option (List Char))
      (ok : Bool) (roms : List Rom) (nodes : List WalkNode),
    on_reached_symlink node = (FTSAction.FTS_OK, [])
    ∧ on_reached_special_file node = (FTSAction.FTS_OK, [])
    ∧ processNodes root version roms (⟨NodeKind.symlink, p, b, ok⟩ :: nodes)
        = processNodes root version roms nodes
    ∧ processNodes root version roms (⟨NodeKind.special, p, b, ok⟩ :: nodes)
        = processNodes root version roms nodes := by
  intro node root version p b ok roms nodes
  exact ⟨rfl, rfl, rfl, rfl⟩

/-- C9 (amended): the template rewrite equals the sequential application
of the six substitutions in the code's fixed order (tab, version, menu
items, selection items, first index, last index); the substitutions are
not order-independent in general, because a replacement can create a
token occurrence for a later step. -/
theorem C9_sequential_substitutions :
    ∀ (version : List Char) (roms : List Rom) (data : List Char),
    generate_aroma_config version roms data
      = applySubsts data (substitutions version roms) := by
  intro version roms data
  rfl

/-- C9 counterexample: swapping the menu-items and first-index
substitutions (a permutation of the code's order) changes the output on
the buffer "@FIRST_@ROM_MENU_ITEMS@INDEX@" with zero ROMs: the code's
order yields "3" while the swapped order leaves "@FIRST_INDEX@". -/
theorem C9_counterexample :
    List.Perm (substitutions (("1.2.3").toList) [])
      [(tabTok, tabRep),
       (versionTok, ("1.2.3").toList),
       (firstTok, first_index_str),
       (selTok, (aromaItems 0 []).2),
       (menuTok, (aromaItems 0 []).1),
       (lastTok, last_index_str [])]
    ∧ applySubsts (("@FIRST_@ROM_MENU_ITEMS@INDEX@").toList)
        (substitutions (("1.2.3").toList) [])
      = ("3").toList
    ∧ applySubsts (("@FIRST_@ROM_MENU_ITEMS@INDEX@").toList)
        [(tabTok, tabRep),
         (versionTok, ("1.2.3").toList),
         (firstTok, first_index_str),
         (selTok, (aromaItems 0 []).2),
         (menuTok, (aromaItems 0 []).1),
         (lastTok, last_index_str [])]
      = ("@FIRST_INDEX@").toList
    ∧ (("3").toList ≠ ("@FIRST_INDEX@").toList) := by
  exact ⟨by decide, by decide, by decide, by decide⟩

/-- C10: the entry name is the node's full path with the root path plus
one separator character stripped from the front; when the root carries no
trailing slash and the full path is root, slash, relative path, the
result is exactly the relative path, while a root that already ends in a
slash strips one further character off the relative path. -/
theorem C10_entry_name :
    ∀ (root rel : List Char),
    entryName root (root ++ '/' :: rel) = rel
    ∧ entryName (root ++ ['/']) (root ++ '/' :: rel) = List.drop 1 rel := by
  intro root rel
  constructor
  · show List.drop (root.length + 1) (root ++ '/' :: rel) = rel
    rw [drop_length_add]
    rfl
  · show List.drop ((root ++ ['/']).length + 1) (root ++ '/' :: rel) = List.drop 1 rel
    have hlen : (root ++ ['/']).length + 1 = root.length + 2 := by simp
    rw [hlen, drop_length_add]
    rfl

end Mbtool

namespace Mbtool

/-- C2: for both `add_file` variants, the zip64 (extended) record
variant is selected exactly when the content length in bytes is at least
2^32 - 1, and the standard variant exactly when it is below that bound;
in particular a length of exactly 2^32 - 1 selects the extended variant
and 2^32 - 2 selects the standard one, for both variants. -/
theorem C2_zip64_boundary :
    ∀ (o w oe : Bool) (sz md : Nat) (rd : List (Option Bool))
      (name contents : List Char),
    ((zip64Of (add_file_contents ⟨o, w⟩ name contents) = some true
        ↔ 2 ^ 32 - 1 ≤ contents.length)
      ∧ (zip64Of (add_file_contents ⟨o, w⟩ name contents) = some false
        ↔ contents.length < 2 ^ 32 - 1))
    ∧ ((zip64Of (add_file_path ⟨true, true, sz, md, oe, rd⟩ name) = some true
        ↔ 2 ^ 32 - 1 ≤ sz)
      ∧ (zip64Of (add_file_path ⟨true, true, sz, md, oe, rd⟩ name) = some false
        ↔ sz < 2 ^ 32 - 1))
    ∧ zip64Of (add_file_contents ⟨true, true⟩ [] (List.replicate (2 ^ 32 - 1) 'c'))
        = some true
    ∧ zip64Of (add_file_contents ⟨true, true⟩ [] (List.replicate (2 ^ 32 - 2) 'c'))
        = some false
    ∧ zip64Of (add_file_path ⟨true, true, 2 ^ 32 - 1, 0, true, []⟩ [])
        = some true
    ∧ zip64Of (add_file_path ⟨true, true, 2 ^ 32 - 2, 0, true, []⟩ [])
        = some false := by
  intro o w oe sz md rd name contents
  have hbuf : ∀ (o' w' : Bool) (nm cs : List Char),
      zip64Of (add_file_contents ⟨o', w'⟩ nm cs)
        = some (decide (2 ^ 32 - 1 ≤ cs.length)) := by
    intro o' w' nm cs
    cases o' <;> cases w' <;> rfl
  have hpath : ∀ (oe' : Bool) (sz' md' : Nat) (rd' : List (Option Bool))
      (nm : List Char),
      zip64Of (add_file_path ⟨true, true, sz', md', oe', rd'⟩ nm)
        = some (decide (2 ^ 32 - 1 ≤ sz')) := by
    intro oe' sz' md' rd' nm
    cases oe' <;> rfl
  refine ⟨⟨?_, ?_⟩, ⟨?_, ?_⟩, ?_, ?_, ?_, ?_⟩
  · rw [hbuf]
    simp only [Option.some.injEq, decide_eq_true_eq]
  · rw [hbuf]
    simp only [Option.some.injEq, decide_eq_false_iff_not, Nat.not_le]
  · rw [hpath]
    simp only [Option.some.injEq, decide_eq_true_eq]
  · rw [hpath]
    simp only [Option.some.injEq, decide_eq_false_iff_not, Nat.not_le]
  · rw [hbuf]
    simp only [List.length_replicate, Option.some.injEq, decide_eq_true_eq]
    exact Nat.le_refl _
  · rw [hbuf]
    simp only [List.length_replicate, Option.some.injEq, decide_eq_false_iff_not,
      Nat.not_le]
    norm_num
  · rw [hpath]
    simp only [Option.some.injEq, decide_eq_true_eq]
    exact Nat.le_refl _
  · rw [hpath]
    simp only [Option.some.injEq, decide_eq_false_iff_not, Nat.not_le]
    norm_num

/-- C4: in the path-sourced `add_file`, once the entry record has been
opened, any read error or write error makes the call return failure and
its minizip call trace still contains the entry-close call, so the open
record is finalized on every such error path. -/
theorem C4_error_paths_close_entry :
    ∀ (sz md : Nat) (rd : List (Option Bool)) (name : List Char),
    rd.any (fun x => !(x == some true)) = true →
    (add_file_path ⟨true, true, sz, md, true, rd⟩ name).1 = false
    ∧ ZipCall.closeEntry ∈ (add_file_path ⟨true, true, sz, md, true, rd⟩ name).2 := by
  intro sz md rd name herr
  have h := writeLoop_err rd herr
  exact ⟨h.1, List.mem_cons_of_mem _ h.2⟩

/-- C4 witness: a concrete run with one good chunk followed by a read
error fails and closes the open entry record. -/
theorem C4_error_paths_close_entry_witness :
    (add_file_path ⟨true, true, 5, 420, true, [some true, none]⟩ ("a").toList).1 = false
    ∧ ZipCall.closeEntry
        ∈ (add_file_path ⟨true, true, 5, 420, true, [some true, none]⟩ ("a").toList).2 :=
  C4_error_paths_close_entry 5 420 [some true, none] (("a").toList) (by decide)

/-- C5 (amended): the reached-file handler never adds an entry named
"META-INF/com/google/android/aroma-config.in"; when the node's relative
path is that name and the template is readable and the archive write
succeeds, the single entry added is the renamed
"META-INF/com/google/android/aroma-config" whose content is the template
bytes rewritten by `generate_aroma_config` (the six substitutions in the
code's fixed order; a later substitution can recreate an earlier token,
which then remains in the output). -/
theorem C5_renamed_entry :
    ∀ (root version : List Char) (roms : List Rom) (node : WalkNode)
      (data : List Char),
    (∀ e ∈ (on_reached_file root version roms node).2, e.1 ≠ aromaConfigInName)
    ∧ (entryName root node.ftsPath = aromaConfigInName →
        node.bytes = some data → node.addOk = true →
        (on_reached_file root version roms node).2
          = [(aromaConfigName, generate_aroma_config version roms data)]) := by
  intro root version roms node data
  constructor
  · intro e he
    by_cases hn : entryName root node.ftsPath = aromaConfigInName
    · match hb : node.bytes with
      | none =>
        simp [on_reached_file, hn, hb] at he
      | some d =>
        by_cases ha : node.addOk
        · simp [on_reached_file, hn, hb, ha] at he
          subst he
          show aromaConfigName ≠ aromaConfigInName
          decide
        · simp [on_reached_file, hn, hb, ha] at he
    · by_cases ha : node.addOk
      · simp [on_reached_file, hn, ha] at he
        subst he
        exact hn
      · simp [on_reached_file, hn, ha] at he
  · intro hn hb ha
    simp [on_reached_file, hn, hb, ha]

/-- C5 witness: a concrete template node is stored under the renamed
path with the rewritten content. -/
theorem C5_renamed_entry_witness :
    (on_reached_file (("/r").toList) (("v1").toList) []
        ⟨NodeKind.file, ("/r/META-INF/com/google/android/aroma-config.in").toList,
          some (("hi").toList), true⟩).2
      = [(aromaConfigName,
          generate_aroma_config (("v1").toList) [] (("hi").toList))] :=
  (C5_renamed_entry (("/r").toList) (("v1").toList) []
      ⟨NodeKind.file, ("/r/META-INF/com/google/android/aroma-config.in").toList,
        some (("hi").toList), true⟩ (("hi").toList)).2 (by decide) rfl rfl

/-- C5 counterexample: with zero ROMs, the template buffer
"@MBTOOL_@ROM_MENU_ITEMS@VERSION@" is stored (renamed) as the literal
text "@MBTOOL_VERSION@": replacing the menu-items token with the empty
string recreates the already-processed version token, so a literal
placeholder token remains in the output entry. -/
theorem C5_counterexample :
    (on_reached_file (("/t").toList) (("1.2.3").toList) []
        ⟨NodeKind.file, ("/t/META-INF/com/google/android/aroma-config.in").toList,
          some (("@MBTOOL_@ROM_MENU_ITEMS@VERSION@").toList), true⟩).2
      = [(aromaConfigName, ("@MBTOOL_VERSION@").toList)]
    ∧ containsTok (("@MBTOOL_VERSION@").toList) versionTok = true := by
  exact ⟨by decide, by decide⟩

/-- C7: the external file attributes recorded for a path-sourced entry
are the source's mode bits masked to the low 9 bits and shifted left by
16, while a buffer-sourced entry records zero. -/
theorem C7_external_attributes :
    ∀ (oe o w : Bool) (sz md : Nat) (rd : List (Option Bool))
      (name contents : List Char),
    extFaOf (add_file_path ⟨true, true, sz, md, oe, rd⟩ name)
      = some ((md % 2 ^ 9) * 2 ^ 16)
    ∧ extFaOf (add_file_contents ⟨o, w⟩ name contents) = some 0 := by
  intro oe o w sz md rd name contents
  constructor
  · have hfa : extFaOf (add_file_path ⟨true, true, sz, md, oe, rd⟩ name)
        = some ((md &&& 0o777) <<< 16) := by
      cases oe <;> rfl
    rw [hfa]
    have hmask : md &&& 0o777 = md % 2 ^ 9 := by
      have h9 : (0o777 : Nat) = 2 ^ 9 - 1 := by norm_num
      rw [h9, Nat.and_pow_two_sub_one_eq_mod]
    rw [hmask, Nat.shiftLeft_eq]
  · cases o <;> cases w <;> rfl

/-- C8: the menu-items replacement is the concatenation, in ROM-list
order, of one record per installed ROM; provided display names contain
no newline, each record is a single line; the name shown is the loaded
config name when the per-ROM config loads and the ROM identifier
otherwise. -/
theorem C8_menu_items :
    ∀ roms : List Rom,
    (∀ r ∈ roms, '\n' ∉ displayName r) →
    (aromaItems 0 roms).1 = (roms.map fun r => menuLine (displayName r)).flatten
    ∧ (∀ r ∈ roms, (menuLine (displayName r)).count '\n' = 1)
    ∧ (∀ r ∈ roms,
        (r.configName = none → displayName r = r.id)
        ∧ ∀ n, r.configName = some n → displayName r = n) := by
  intro roms h
  refine ⟨aromaItems_fst 0 roms, ?_, ?_⟩
  · intro r hr
    have hnl : (displayName r).count '\n' = 0 := by
      rw [List.count_eq_zero]
      exact h r hr
    simp [menuLine, List.count_append, List.count_cons, hnl]
  · intro r hr
    constructor
    · intro hc
      simp [displayName, hc]
    · intro n hc
      simp [displayName, hc]

/-- C8 witness: two concrete ROMs, one without a loadable config (shown
by id) and one with a config name, produce the two menu lines in order. -/
theorem C8_menu_items_witness :
    (aromaItems 0 [⟨("dual").toList, none⟩,
        ⟨("data-slot-1").toList, some (("Custom ROM").toList)⟩]).1
      = ([⟨("dual").toList, none⟩,
          ⟨("data-slot-1").toList, some (("Custom ROM").toList)⟩].map
            fun r => menuLine (displayName r)).flatten :=
  (C8_menu_items [⟨("dual").toList, none⟩,
      ⟨("data-slot-1").toList, some (("Custom ROM").toList)⟩] (by decide)).1

end Mbtool
